import Mathlib

/-!
Verification development for the Kling video-generator front end (`src/app.py`).

The app is shallowly embedded: Python strings become `List Char` (Python
compares strings by code points, which is exactly lexicographic order on the
character lists), bytes become `List Nat` with entries below 256, the save
directory becomes an association list of `(filename, contents)` pairs, and
every effect of `main`'s generate branch (network calls, `st.error` messages,
`st.write` displays, `status.update` calls, file writes) is recorded in an
explicit result record.
-/

namespace KlingApp

/-- Color modes of a decoded PIL image.  The modes that carry an alpha
channel are `RGBA`, `LA` and `PA`. -/
inductive Mode where
  | RGB
  | RGBA
  | L
  | LA
  | P
  | PA
  deriving DecidableEq, Repr

/-- Whether a PIL color mode carries an alpha channel. -/
def Mode.hasAlpha : Mode → Bool
  | .RGBA => true
  | .LA => true
  | .PA => true
  | _ => false

/-- A decoded raster image: color mode, dimensions, and raw pixel bytes. -/
structure PILImage where
  mode : Mode
  width : Nat
  height : Nat
  pixels : List Nat
  deriving DecidableEq, Repr

/-- Drop every fourth byte of an RGBA pixel stream (alpha is dropped, not
composited), modelling `Image.convert('RGB')` applied to an RGBA image. -/
def rgbaToRgb : List Nat → List Nat
  | r :: g :: b :: _ :: rest => r :: g :: b :: rgbaToRgb rest
  | l => l

/-- `image.convert('RGB')` as used at `app.py:172` (only ever applied to an
RGBA image there). -/
def PILImage.convertRGB (img : PILImage) : PILImage :=
  ⟨Mode.RGB, img.width, img.height,
    if img.mode = Mode.RGBA then rgbaToRgb img.pixels else img.pixels⟩

/-- The mode normalization of `app.py:170-172`: convert to RGB exactly when
the decoded mode is RGBA; every other mode is left untouched. -/
def normalizeUpload (img : PILImage) : PILImage :=
  if img.mode = Mode.RGBA then img.convertRGB else img

/-- A wall-clock timestamp at second precision, as produced by
`datetime.datetime.now()` and formatted by `strftime("%Y%m%d_%H%M%S")`. -/
structure Timestamp where
  year : Nat
  month : Nat
  day : Nat
  hour : Nat
  minute : Nat
  second : Nat
  deriving DecidableEq, Repr

/-- Field bounds guaranteed for any timestamp coming from the real clock. -/
def Timestamp.wf (t : Timestamp) : Prop :=
  t.year < 10000 ∧ 1 ≤ t.month ∧ t.month ≤ 12 ∧ 1 ≤ t.day ∧ t.day ≤ 31 ∧
    t.hour ≤ 23 ∧ t.minute ≤ 59 ∧ t.second ≤ 59

instance (t : Timestamp) : Decidable t.wf := by
  unfold Timestamp.wf; infer_instance

/-- Chronological order on timestamps: lexicographic on the six fields. -/
def Timestamp.chronoLt (a b : Timestamp) : Prop :=
  a.year < b.year ∨ (a.year = b.year ∧
    (a.month < b.month ∨ (a.month = b.month ∧
      (a.day < b.day ∨ (a.day = b.day ∧
        (a.hour < b.hour ∨ (a.hour = b.hour ∧
          (a.minute < b.minute ∨ (a.minute = b.minute ∧
            a.second < b.second)))))))))

instance (a b : Timestamp) : Decidable (a.chronoLt b) := by
  unfold Timestamp.chronoLt; infer_instance

/-- The decimal digits of `n`, most significant first, zero-padded to width
`w` (digit `i` positions from the right is `n / 10 ^ i % 10`), modelling the
fixed-width fields of `strftime`. -/
def padDigits : Nat → Nat → List Nat
  | 0, _ => []
  | w + 1, n => (n / 10 ^ w) % 10 :: padDigits w n

/-- Zero-padded fixed-width decimal rendering of `n` as characters. -/
def padChars (w n : Nat) : List Char :=
  (padDigits w n).map Nat.digitChar

/-- `strftime("%Y%m%d_%H%M%S")` applied to a timestamp (`app.py:53`). -/
def fmtTimestamp (t : Timestamp) : List Char :=
  padChars 4 t.year ++ (padChars 2 t.month ++ (padChars 2 t.day ++
    ('_' :: (padChars 2 t.hour ++ (padChars 2 t.minute ++ padChars 2 t.second)))))

/-- The fixed filename prefix used at `app.py:54`. -/
def klingChars : List Char := "kling_video_".toList

/-- The fixed filename suffix used at `app.py:54`. -/
def mp4Chars : List Char := ".mp4".toList

/-- The filename `f"kling_video_{timestamp}.mp4"` of `app.py:54`. -/
def videoFilename (t : Timestamp) : List Char :=
  klingChars ++ (fmtTimestamp t ++ mp4Chars)

/-- An HTTP response as seen by `requests.get`: a status code and an opaque
binary body. -/
structure HttpResponse where
  status_code : Nat
  content : List Nat
  deriving DecidableEq, Repr

/-- Result of one invocation of `save_video` (`app.py:47-64`): the returned
path (if any), the save-directory contents afterwards, and any `st.error`
messages emitted. -/
structure SaveResult where
  savedPath : Option (List Char)
  fs : List (List Char × List Nat)
  errors : List (List Char)
  deriving DecidableEq, Repr

/-- Message prefix of the `st.error` at `app.py:63`. -/
def saveErrPref : List Char := "Error saving video: ".toList

/-- `save_video` (`app.py:47-64`).  `fetch` is the outcome of
`requests.get(video_url)`: `.error` models a transport-level exception
(caught by the surrounding `try`), `.ok` a delivered response.  The save
directory is the association list `fs`; writing the file appends an entry
whose contents are the response body verbatim. -/
def save_video (dir : List Char) (now : Timestamp)
    (fetch : Except (List Char) HttpResponse)
    (fs : List (List Char × List Nat)) : SaveResult :=
  match fetch with
  | .error e => ⟨none, fs, [saveErrPref ++ e]⟩
  | .ok resp =>
    if resp.status_code = 200 then
      let filename := videoFilename now
      ⟨some (dir ++ ('/' :: filename)), fs ++ [(filename, resp.content)], []⟩
    else
      ⟨none, fs, []⟩

/-- Python string comparison `s1 < s2`: lexicographic on code points.
`Char < Char` in Lean is comparison of code points, so this is exactly the
order Python's `list.sort` uses on filenames. -/
def strLt : List Char → List Char → Bool
  | _, [] => false
  | [], _ :: _ => true
  | a :: as, b :: bs => if a < b then true else if b < a then false else strLt as bs

/-- The descending order used by `videos.sort(reverse=True)` at
`app.py:227`: `a` may precede `b` when `a` is not strictly below `b`. -/
def descR (a b : List Char) : Prop := strLt a b = false

instance : DecidableRel descR := fun a b =>
  inferInstanceAs (Decidable (strLt a b = false))

/-- Python's `f.endswith('.mp4')` from the comprehension at `app.py:226`. -/
def endsWithMp4 (f : List Char) : Bool := mp4Chars.isSuffixOf f

/-- The History Store's listing (`app.py:226-227`): keep the `.mp4` entries
of the directory, then sort them descending.  Python's `list.sort` is a
stable sort; for a total preorder every stable sort returns the same list,
so insertion sort is an exact model. -/
def historyListing (files : List (List Char)) : List (List Char) :=
  List.insertionSort descR (files.filter endsWithMp4)

/-- Python's `str.replace(pat, '')`: delete every (left-to-right,
non-overlapping) occurrence of `pat`.  `fuel` bounds the recursion by the
length of the scanned list. -/
def replaceAllAux (pat : List Char) : Nat → List Char → List Char
  | 0, s => s
  | _, [] => []
  | fuel + 1, c :: cs =>
    if pat ≠ [] ∧ pat.isPrefixOf (c :: cs) then
      replaceAllAux pat fuel ((c :: cs).drop pat.length)
    else
      c :: replaceAllAux pat fuel cs

/-- Python's `s.replace(pat, '')`. -/
def replaceAll (pat s : List Char) : List Char :=
  replaceAllAux pat s.length s

/-- `video.replace('kling_video_', '').replace('.mp4', '')` from
`app.py:237`. -/
def stripVideoName (f : List Char) : List Char :=
  replaceAll mp4Chars (replaceAll klingChars f)

/-- Numeric value of a decimal digit character. -/
def digitVal (c : Char) : Nat := c.toNat - 48

/-- Try candidates in order and keep the first that makes the rest of the
match succeed — the backtracking of a regex alternation. -/
def firstMatch {α β : Type} : List α → (α → Option β) → Option β
  | [], _ => none
  | a :: as, f =>
    match f a with
    | some b => some b
    | none => firstMatch as f

/-- CPython's regex for `%m`, `(1[0-2]|0[1-9]|[1-9])`: each candidate is a
parsed value with the unconsumed rest, in the alternation's order. -/
def monthAlts : List Char → List (Nat × List Char)
  | c1 :: c2 :: rest =>
    (if c1 = '1' ∧ '0' ≤ c2 ∧ c2 ≤ '2' then [(10 + digitVal c2, rest)] else []) ++
    (if c1 = '0' ∧ '1' ≤ c2 ∧ c2 ≤ '9' then [(digitVal c2, rest)] else []) ++
    (if '1' ≤ c1 ∧ c1 ≤ '9' then [(digitVal c1, c2 :: rest)] else [])
  | [c1] => if '1' ≤ c1 ∧ c1 ≤ '9' then [(digitVal c1, [])] else []
  | [] => []

/-- CPython's regex for `%d`, `(3[01]|[12]\d|0[1-9]|[1-9])`. -/
def dayAlts : List Char → List (Nat × List Char)
  | c1 :: c2 :: rest =>
    (if c1 = '3' ∧ (c2 = '0' ∨ c2 = '1') then [(30 + digitVal c2, rest)] else []) ++
    (if (c1 = '1' ∨ c1 = '2') ∧ c2.isDigit then
      [(digitVal c1 * 10 + digitVal c2, rest)] else []) ++
    (if c1 = '0' ∧ '1' ≤ c2 ∧ c2 ≤ '9' then [(digitVal c2, rest)] else []) ++
    (if '1' ≤ c1 ∧ c1 ≤ '9' then [(digitVal c1, c2 :: rest)] else [])
  | [c1] => if '1' ≤ c1 ∧ c1 ≤ '9' then [(digitVal c1, [])] else []
  | [] => []

/-- CPython's regex for `%H`, `(2[0-3]|[0-1]\d|\d)`. -/
def hourAlts : List Char → List (Nat × List Char)
  | c1 :: c2 :: rest =>
    (if c1 = '2' ∧ '0' ≤ c2 ∧ c2 ≤ '3' then [(20 + digitVal c2, rest)] else []) ++
    (if (c1 = '0' ∨ c1 = '1') ∧ c2.isDigit then
      [(digitVal c1 * 10 + digitVal c2, rest)] else []) ++
    (if c1.isDigit then [(digitVal c1, c2 :: rest)] else [])
  | [c1] => if c1.isDigit then [(digitVal c1, [])] else []
  | [] => []

/-- CPython's regex for `%M`, `([0-5]\d|\d)`. -/
def minAlts : List Char → List (Nat × List Char)
  | c1 :: c2 :: rest =>
    (if '0' ≤ c1 ∧ c1 ≤ '5' ∧ c2.isDigit then
      [(digitVal c1 * 10 + digitVal c2, rest)] else []) ++
    (if c1.isDigit then [(digitVal c1, c2 :: rest)] else [])
  | [c1] => if c1.isDigit then [(digitVal c1, [])] else []
  | [] => []

/-- CPython's regex for `%S`, `(6[0-1]|[0-5]\d|\d)`. -/
def secAlts : List Char → List (Nat × List Char)
  | c1 :: c2 :: rest =>
    (if c1 = '6' ∧ (c2 = '0' ∨ c2 = '1') then [(60 + digitVal c2, rest)] else []) ++
    (if '0' ≤ c1 ∧ c1 ≤ '5' ∧ c2.isDigit then
      [(digitVal c1 * 10 + digitVal c2, rest)] else []) ++
    (if c1.isDigit then [(digitVal c1, c2 :: rest)] else [])
  | [c1] => if c1.isDigit then [(digitVal c1, [])] else []
  | [] => []

/-- The `_strptime` regex for `"%Y%m%d_%H%M%S"` — four year digits, then
the month, day, underscore literal, hour, minute and second groups with the
leftmost-alternative backtracking of the regex engine.  Like `re.match`,
it returns the first successful match of the pattern as a prefix, together
with the unconsumed rest of the input. -/
def matchPattern (s : List Char) :
    Option ((Nat × Nat × Nat × Nat × Nat × Nat) × List Char) :=
  match s with
  | y1 :: y2 :: y3 :: y4 :: r0 =>
    if y1.isDigit ∧ y2.isDigit ∧ y3.isDigit ∧ y4.isDigit then
      firstMatch (monthAlts r0) fun mor =>
        firstMatch (dayAlts mor.2) fun dar =>
          match dar.2 with
          | '_' :: r1 =>
            firstMatch (hourAlts r1) fun hor =>
              firstMatch (minAlts hor.2) fun mir =>
                firstMatch (secAlts mir.2) fun ser =>
                  some ((digitVal y1 * 1000 + digitVal y2 * 100 + digitVal y3 * 10 +
                    digitVal y4, mor.1, dar.1, hor.1, mir.1, ser.1), ser.2)
          | _ => none
    else none
  | _ => none

/-- Gregorian leap year, as `datetime` uses it. -/
def isLeapYear (y : Nat) : Bool :=
  y % 4 == 0 && (y % 100 != 0 || y % 400 == 0)

/-- Length of a month, as the `datetime` constructor validates it. -/
def daysInMonth (y m : Nat) : Nat :=
  if m = 2 then (if isLeapYear y then 29 else 28)
  else if m = 4 ∨ m = 6 ∨ m = 9 ∨ m = 11 then 30
  else 31

/-- `datetime.datetime.strptime(s, "%Y%m%d_%H%M%S")` (`app.py:236-239`):
match the `_strptime` regex against a prefix of the input, raise if there is
no match or if unconverted data remains, then build the `datetime`, which
validates the calendar date (year at least 1, day within the month's length,
leap years included) and rejects the leap seconds 60-61 that the regex
itself admits.  Every `ValueError` is modelled as `.error`. -/
def parseTimestamp (s : List Char) : Except (List Char) Timestamp :=
  match matchPattern s with
  | none => .error ("time data does not match format".toList)
  | some ((y, mo, da, ho, mi, se), rest) =>
    if rest ≠ [] then .error ("unconverted data remains".toList)
    else if y = 0 then .error ("year 0 is out of range".toList)
    else if daysInMonth y mo < da then
      .error ("day is out of range for month".toList)
    else if 59 < se then .error ("second must be in 0..59".toList)
    else .ok ⟨y, mo, da, ho, mi, se⟩

/-- The per-entry body of the history loop (`app.py:232-243`): parse each
filename's embedded timestamp with `strptime`.  A `ValueError` propagates
out of the loop and aborts the whole rendering, so the first failing entry
makes the result an `.error`. -/
def renderEntries : List (List Char) → Except (List Char) (List (List Char × Timestamp))
  | [] => .ok []
  | f :: fs =>
    match parseTimestamp (stripVideoName f) with
    | .error e => .error e
    | .ok t =>
      match renderEntries fs with
      | .error e => .error e
      | .ok rest => .ok ((f, t) :: rest)

/-- The complete History tab rendering (`app.py:225-243`): list, sort, then
parse-and-display each entry. -/
def renderHistory (files : List (List Char)) :
    Except (List Char) (List (List Char × Timestamp)) :=
  renderEntries (historyListing files)

/-- The standard base64 alphabet, as used by `base64.b64encode`. -/
def b64Table : Nat → Char :=
  fun i => "ABCDEFGHIJKLMNOPQRSTUVWXYZabcdefghijklmnopqrstuvwxyz0123456789+/".toList.getD i '?'

/-- Inverse lookup into the base64 alphabet. -/
def b64Inv (c : Char) : Option Nat :=
  "ABCDEFGHIJKLMNOPQRSTUVWXYZabcdefghijklmnopqrstuvwxyz0123456789+/".toList.indexOf? c

/-- `base64.b64encode` (RFC 4648): encode bytes in groups of three into four
alphabet characters, padding the final partial group with `=`. -/
def b64encode : List Nat → List Char
  | [] => []
  | [b1] => [b64Table (b1 / 4), b64Table (b1 % 4 * 16), '=', '=']
  | [b1, b2] => [b64Table (b1 / 4), b64Table (b1 % 4 * 16 + b2 / 16), b64Table (b2 % 16 * 4), '=']
  | b1 :: b2 :: b3 :: rest =>
    b64Table (b1 / 4) :: b64Table (b1 % 4 * 16 + b2 / 16) ::
      b64Table (b2 % 16 * 4 + b3 / 64) :: b64Table (b3 % 64) :: b64encode rest

/-- Base64 decoding, the inverse of `b64encode` on its image. -/
def b64decode : List Char → Option (List Nat)
  | [] => some []
  | c1 :: c2 :: c3 :: c4 :: rest =>
    match b64Inv c1, b64Inv c2 with
    | some a, some b =>
      if c3 = '=' then
        if c4 = '=' ∧ rest = [] then some [a * 4 + b / 16] else none
      else
        match b64Inv c3 with
        | some c =>
          if c4 = '=' then
            if rest = [] then some [a * 4 + b / 16, b % 16 * 16 + c / 4] else none
          else
            match b64Inv c4, b64decode rest with
            | some d, some tail =>
              some ((a * 4 + b / 16) :: (b % 16 * 16 + c / 4) :: (c % 4 * 64 + d) :: tail)
            | _, _ => none
        | none => none
    | _, _ => none
  | _ => none

/-- Tag byte identifying a color mode in the modelled PNG stream. -/
def modeTag : Mode → Nat
  | .RGB => 0
  | .RGBA => 1
  | .L => 2
  | .LA => 3
  | .P => 4
  | .PA => 5

/-- Color mode back from its tag byte. -/
def modeOfTag : Nat → Option Mode
  | 0 => some .RGB
  | 1 => some .RGBA
  | 2 => some .L
  | 3 => some .LA
  | 4 => some .P
  | 5 => some .PA
  | _ => none

/-- A dimension as four big-endian bytes (PNG stores width and height as
32-bit big-endian integers). -/
def enc4 (n : Nat) : List Nat :=
  [n / 16777216 % 256, n / 65536 % 256, n / 256 % 256, n % 256]

/-- Modelled from the spec: the external PIL PNG encoder invoked by
`image.save(buffered, format="PNG")` at `app.py:43` is not part of this
repository; the spec requires only a lossless raster format, modelled here
as a byte stream holding the mode tag, the two 32-bit big-endian
dimensions, and the raw pixel bytes. -/
def pngEncode (img : PILImage) : List Nat :=
  modeTag img.mode :: (enc4 img.width ++ (enc4 img.height ++ img.pixels))

/-- Modelled from the spec: decoder for the modelled lossless raster
format, recovering mode, dimensions and pixel data. -/
def pngDecode : List Nat → Option PILImage
  | mt :: w1 :: w2 :: w3 :: w4 :: h1 :: h2 :: h3 :: h4 :: px =>
    (modeOfTag mt).map fun m =>
      ⟨m, w1 * 16777216 + w2 * 65536 + w3 * 256 + w4,
        h1 * 16777216 + h2 * 65536 + h3 * 256 + h4, px⟩
  | _ => none

/-- An image whose dimensions fit PNG's 32-bit fields and whose pixel data
consists of bytes. -/
def PILImage.wf (img : PILImage) : Prop :=
  img.width < 4294967296 ∧ img.height < 4294967296 ∧ ∀ b ∈ img.pixels, b < 256

/-- The MIME tag prepended at `app.py:45`. -/
def mimeChars : List Char := "data:image/png;base64,".toList

/-- `image_to_base64` (`app.py:41-45`): PNG-encode the image, base64 the
bytes, and prepend the data-URL MIME tag. -/
def image_to_base64 (img : PILImage) : List Char :=
  mimeChars ++ b64encode (pngEncode img)

/-- The Image Codec Adapter pipeline of `app.py:164-178`: normalize the
mode, then produce the inline data string. -/
def adapterEncode (img : PILImage) : List Char :=
  image_to_base64 (normalizeUpload img)

/-- Inverse of the inline data string: check and strip the MIME tag, then
decode base64 and the raster stream. -/
def decodeDataUrl (s : List Char) : Option PILImage :=
  if mimeChars.isPrefixOf s then
    (b64decode (s.drop mimeChars.length)).bind pngDecode
  else
    none

/-- A Python value returned by `replicate.run` as the code inspects it:
a string, `None`, or some other object of which only truthiness matters. -/
inductive PyValue where
  | pstr (s : List Char)
  | pnone
  | pother (truthyFlag : Bool)
  deriving DecidableEq, Repr

/-- Python truthiness, as tested by `if output:` at `app.py:268`. -/
def PyValue.truthy : PyValue → Bool
  | .pstr s => !s.isEmpty
  | .pnone => false
  | .pother b => b

/-- The scheme tests of `app.py:271`. -/
def httpPat : List Char := "http://".toList

/-- The second scheme test of `app.py:271`. -/
def httpsPat : List Char := "https://".toList

/-- `isinstance(output, str) and (output.startswith('http://') or
output.startswith('https://'))` (`app.py:271`). -/
def isHttpUrl : PyValue → Bool
  | .pstr s => httpPat.isPrefixOf s || httpsPat.isPrefixOf s
  | _ => false

/-- Outcome of the single `replicate.run` call (`app.py:256-266`): either a
returned value or a raised exception carrying its message. -/
inductive InferResult where
  | output (v : PyValue)
  | raised (msg : List Char)
  deriving DecidableEq, Repr

/-- One state change of the `st.status` widget, as driven explicitly by the
code (creation at `app.py:253`, updates at 254, 269 and 314). -/
inductive StatusUpdate where
  | running (label : List Char)
  | complete (label : List Char)
  | failed (label : List Char)
  deriving DecidableEq, Repr

/-- Label of `st.status(...)` at `app.py:253`. -/
def genLabel : List Char := "🎥 Generating your video...".toList

/-- Label of the `status.update` at `app.py:254`. -/
def procLabel : List Char := "🤖 AI is processing your request...".toList

/-- Label of the `status.update` at `app.py:269`. -/
def doneLabel : List Char := "✅ Generation complete!".toList

/-- Label of the `status.update` at `app.py:314`. -/
def failLabel : List Char := "Generation failed".toList

/-- Prefix of the `st.error` at `app.py:313`. -/
def errPref : List Char := "🚫 An error occurred: ".toList

/-- The `st.error` at `app.py:250`. -/
def uploadErrMsg : List Char := "⚠️ Please upload an image to continue".toList

/-- Prefix of the `st.error` at `app.py:180`. -/
def procErrPref : List Char := "Error processing image: ".toList

/-- The exit action of `with st.status(...)` (`app.py:253`): on clean exit
of the block — and every path exits cleanly, since the `except` at
`app.py:312` catches everything — Streamlit's status container
automatically sets a still-running status to the complete state, keeping
its current label; a status already set to complete or error is left
alone. -/
def statusOnExit : List StatusUpdate → List StatusUpdate
  | [] => []
  | [StatusUpdate.running lab] => [StatusUpdate.running lab, StatusUpdate.complete lab]
  | [u] => [u]
  | u :: rest => u :: statusOnExit rest

/-- Every externally visible effect of one pass through `main`'s
upload-and-generate flow: the inference calls made (each recording the
`start_image` payload sent), the video URLs fetched, the `st.error`
messages, the raw outputs displayed with `st.write`, the path returned by
`save_video`, the save-directory contents afterwards, and the sequence of
status-widget states the code set. -/
structure RunResult where
  calledWith : List (Option (List Char))
  fetchedUrls : List (List Char)
  errors : List (List Char)
  displayed : List PyValue
  savedPath : Option (List Char)
  fs : List (List Char × List Nat)
  statusTrace : List StatusUpdate
  deriving DecidableEq, Repr

/-- The upload-and-generate flow of `main` (`app.py:163-181` and
`248-314`).  `uploaded` is `None` when no file was uploaded, otherwise the
outcome of decoding it with `Image.open` (`.error` for a raised decode
exception, which `app.py:179-181` reports and then returns from `main`).
`pressed` is the generate button.  `infer` is what the single
`replicate.run` call would produce, `fetch` what `requests.get` on the
result URL would produce, `now` the wall clock at save time, `dir` the
SaveDirectory and `fs0` its contents before the attempt. -/
def appRun (uploaded : Option (Except (List Char) PILImage)) (pressed : Bool)
    (infer : InferResult) (fetch : Except (List Char) HttpResponse)
    (now : Timestamp) (dir : List Char)
    (fs0 : List (List Char × List Nat)) : RunResult :=
  match uploaded with
  | some (.error e) =>
    -- decode failure: `st.error` then `return` before any network call
    ⟨[], [], [procErrPref ++ e], [], none, fs0, []⟩
  | none =>
    if pressed then
      -- `if not uploaded_file:` at app.py:249: error, and `main` returns
      ⟨[], [], [uploadErrMsg], [], none, fs0, []⟩
    else
      ⟨[], [], [], [], none, fs0, []⟩
  | some (.ok img) =>
    if pressed then
      let payload := some (adapterEncode img)
      let trace0 := [StatusUpdate.running genLabel, StatusUpdate.running procLabel]
      match infer with
      | .raised msg =>
        ⟨[payload], [], [errPref ++ msg], [], none, fs0,
          statusOnExit (trace0 ++ [StatusUpdate.failed failLabel])⟩
      | .output v =>
        if v.truthy then
          let trace1 := statusOnExit (trace0 ++ [StatusUpdate.complete doneLabel])
          match v with
          | .pstr s =>
            if httpPat.isPrefixOf s || httpsPat.isPrefixOf s then
              let r := save_video dir now fetch fs0
              ⟨[payload], [s], r.errors, [], r.savedPath, r.fs, trace1⟩
            else
              ⟨[payload], [], [], [v], none, fs0, trace1⟩
          | w =>
            ⟨[payload], [], [], [w], none, fs0, trace1⟩
        else
          -- falsy output: the `if output:` body is skipped entirely, and
          -- the still-running status is auto-completed on block exit
          ⟨[payload], [], [], [], none, fs0, statusOnExit trace0⟩
    else
      ⟨[], [], [], [], none, fs0, []⟩

/-! ### Order facts about Python string comparison -/

theorem strLt_cons (x y : Char) (xs ys : List Char) :
    strLt (x :: xs) (y :: ys) =
      if x < y then true else if y < x then false else strLt xs ys := rfl

theorem strLt_irrefl (l : List Char) : strLt l l = false := by
  induction l with
  | nil => rfl
  | cons a as ih => simp [strLt_cons, lt_irrefl, ih]

theorem strLt_cons_same (c : Char) (r1 r2 : List Char) :
    strLt (c :: r1) (c :: r2) = strLt r1 r2 := by
  simp [strLt_cons, lt_irrefl]

theorem strLt_asymm : ∀ {a b : List Char}, strLt a b = true → strLt b a = false
  | _, [], h => by simp [strLt] at h
  | [], _ :: _, _ => rfl
  | x :: xs, y :: ys, h => by
    rcases lt_trichotomy x y with hxy | hxy | hxy
    · simp [strLt_cons, hxy, not_lt_of_lt hxy]
    · subst hxy
      rw [strLt_cons_same] at h ⊢
      exact strLt_asymm h
    · simp [strLt_cons, hxy, not_lt_of_lt hxy] at h

theorem strLt_trans : ∀ {a b c : List Char},
    strLt a b = true → strLt b c = true → strLt a c = true
  | _, _, [], _, h2 => by simp [strLt] at h2
  | _, [], _ :: _, h1, _ => by simp [strLt] at h1
  | [], _ :: _, _ :: _, _, _ => rfl
  | x :: xs, y :: ys, z :: zs, h1, h2 => by
    rcases lt_trichotomy x y with hxy | hxy | hxy
    · rcases lt_trichotomy y z with hyz | hyz | hyz
      · simp [strLt_cons, lt_trans hxy hyz]
      · subst hyz; simp [strLt_cons, hxy]
      · simp [strLt_cons, hyz, not_lt_of_lt hyz] at h2
    · subst hxy
      rw [strLt_cons_same] at h1
      rcases lt_trichotomy x z with hyz | hyz | hyz
      · simp [strLt_cons, hyz]
      · subst hyz
        rw [strLt_cons_same] at h2 ⊢
        exact strLt_trans h1 h2
      · simp [strLt_cons, hyz, not_lt_of_lt hyz] at h2
    · simp [strLt_cons, hxy, not_lt_of_lt hxy] at h1

theorem strLt_connex : ∀ {a b : List Char},
    strLt a b = false → strLt b a = false → a = b
  | [], [], _, _ => rfl
  | [], _ :: _, h1, _ => by simp [strLt] at h1
  | _ :: _, [], _, h2 => by simp [strLt] at h2
  | x :: xs, y :: ys, h1, h2 => by
    rcases lt_trichotomy x y with hxy | hxy | hxy
    · simp [strLt_cons, hxy] at h1
    · subst hxy
      rw [strLt_cons_same] at h1 h2
      rw [strLt_connex h1 h2]
    · simp [strLt_cons, hxy, not_lt_of_lt hxy] at h2

instance : IsTotal (List Char) descR := by
  constructor
  intro a b
  by_cases h : strLt a b = true
  · exact Or.inr (strLt_asymm h)
  · exact Or.inl (Bool.eq_false_iff.mpr h)

instance : IsTrans (List Char) descR := by
  constructor
  intro a b c hab hbc
  by_contra hac
  have hac' : strLt a c = true := Bool.eq_false_iff.not_left.mp hac
  by_cases hba : strLt b a = true
  · by_cases hcb : strLt c b = true
    · have : strLt c a = true := strLt_trans hcb hba
      rw [strLt_asymm this] at hac'
      cases hac'
    · have hbc' : b = c := strLt_connex hbc (Bool.eq_false_iff.mpr hcb)
      subst hbc'
      rw [hab] at hac'
      cases hac'
  · have hab' : a = b := strLt_connex hab (Bool.eq_false_iff.mpr hba)
    subst hab'
    rw [hbc] at hac'
    cases hac'

instance : IsAntisymm (List Char) descR :=
  ⟨fun _ _ hab hba => strLt_connex hab hba⟩

theorem strLt_append_left (k x y : List Char) :
    strLt (k ++ x) (k ++ y) = strLt x y := by
  induction k with
  | nil => rfl
  | cons c cs ih => rw [List.cons_append, List.cons_append, strLt_cons_same, ih]

theorem strLt_append_iff : ∀ {l1 l2 : List Char} (s1 s2 : List Char),
    l1.length = l2.length →
    (strLt (l1 ++ s1) (l2 ++ s2) = true ↔
      (strLt l1 l2 = true ∨ (l1 = l2 ∧ strLt s1 s2 = true)))
  | [], [], s1, s2, _ => by simp [strLt]
  | [], _ :: _, _, _, h => by simp at h
  | _ :: _, [], _, _, h => by simp at h
  | x :: xs, y :: ys, s1, s2, h => by
    rcases lt_trichotomy x y with hxy | hxy | hxy
    · simp [strLt_cons, hxy]
    · subst hxy
      rw [List.cons_append, List.cons_append, strLt_cons_same, strLt_cons_same,
        strLt_append_iff s1 s2 (by simpa using h)]
      simp
    · simp only [List.cons_append, strLt_cons, not_lt_of_lt hxy, if_false, hxy, if_true,
        List.cons.injEq]
      constructor
      · intro hf; cases hf
      · rintro (hf | ⟨⟨he, _⟩, _⟩)
        · cases hf
        · exact absurd he (ne_of_gt hxy)

/-! ### Fixed-width zero-padded decimal strings order like their values -/

theorem padDigits_length (w n : Nat) : (padDigits w n).length = w := by
  induction w with
  | zero => rfl
  | succ w ih => simp [padDigits, ih]

theorem padChars_length (w n : Nat) : (padChars w n).length = w := by
  simp [padChars, padDigits_length]

theorem digitChar_lt_iff : ∀ d1 < 10, ∀ d2 < 10,
    ((Nat.digitChar d1 < Nat.digitChar d2) ↔ d1 < d2) := by decide

theorem digitChar_eq_iff : ∀ d1 < 10, ∀ d2 < 10,
    ((Nat.digitChar d1 = Nat.digitChar d2) ↔ d1 = d2) := by decide

theorem nat_block_lt {P A B D1 D2 : Nat} (hA : A < P) (hB : B < P) :
    A + P * D1 < B + P * D2 ↔ (D1 < D2 ∨ (D1 = D2 ∧ A < B)) := by
  constructor
  · intro h
    rcases lt_trichotomy D1 D2 with hd | hd | hd
    · exact Or.inl hd
    · subst hd
      exact Or.inr ⟨rfl, lt_of_add_lt_add_right h⟩
    · exfalso
      have h1 : P * D2 + P ≤ P * D1 := by
        calc P * D2 + P = P * (D2 + 1) := by ring
          _ ≤ P * D1 := Nat.mul_le_mul_left _ hd
      linarith
  · rintro (hd | ⟨hd, hab⟩)
    · calc A + P * D1 < P + P * D1 := by linarith
        _ = P * (D1 + 1) := by ring
        _ ≤ P * D2 := Nat.mul_le_mul_left _ hd
        _ ≤ B + P * D2 := Nat.le_add_left _ _
    · subst hd
      exact Nat.add_lt_add_right hab _

theorem nat_block_eq {P A B D1 D2 : Nat} (hA : A < P) (hB : B < P) :
    A + P * D1 = B + P * D2 ↔ (D1 = D2 ∧ A = B) := by
  constructor
  · intro h
    rcases lt_trichotomy D1 D2 with hd | hd | hd
    · exact absurd h (ne_of_lt ((nat_block_lt hA hB).mpr (Or.inl hd)))
    · subst hd
      exact ⟨rfl, Nat.add_right_cancel h⟩
    · exact absurd h.symm (ne_of_lt ((nat_block_lt hB hA).mpr (Or.inl hd)))
  · rintro ⟨hd, hab⟩
    rw [hd, hab]

theorem padChars_lt_iff : ∀ (w n m : Nat),
    ((strLt (padChars w n) (padChars w m)) = true ↔ n % 10 ^ w < m % 10 ^ w)
  | 0, n, m => by simp [padChars, padDigits, strLt, Nat.mod_one]
  | w + 1, n, m => by
    have d1lt : n / 10 ^ w % 10 < 10 := Nat.mod_lt _ (by norm_num)
    have d2lt : m / 10 ^ w % 10 < 10 := Nat.mod_lt _ (by norm_num)
    have hnw : n % 10 ^ w < 10 ^ w := Nat.mod_lt _ (pow_pos (by norm_num) w)
    have hmw : m % 10 ^ w < 10 ^ w := Nat.mod_lt _ (pow_pos (by norm_num) w)
    show (strLt (Nat.digitChar (n / 10 ^ w % 10) :: padChars w n)
      (Nat.digitChar (m / 10 ^ w % 10) :: padChars w m)) = true ↔ _
    rw [Nat.mod_pow_succ, Nat.mod_pow_succ, nat_block_lt hnw hmw]
    rcases lt_trichotomy (n / 10 ^ w % 10) (m / 10 ^ w % 10) with hd | hd | hd
    · have hc : Nat.digitChar (n / 10 ^ w % 10) < Nat.digitChar (m / 10 ^ w % 10) :=
        (digitChar_lt_iff _ d1lt _ d2lt).mpr hd
      simp [strLt_cons, hc, hd]
    · have hc : Nat.digitChar (n / 10 ^ w % 10) = Nat.digitChar (m / 10 ^ w % 10) :=
        (digitChar_eq_iff _ d1lt _ d2lt).mpr hd
      rw [hc, strLt_cons_same, padChars_lt_iff w n m, hd]
      simp
    · have hc : Nat.digitChar (m / 10 ^ w % 10) < Nat.digitChar (n / 10 ^ w % 10) :=
        (digitChar_lt_iff _ d2lt _ d1lt).mpr hd
      simp [strLt_cons, not_lt_of_lt hc, hc, Nat.lt_asymm hd, ne_of_gt hd]

theorem padChars_eq_iff : ∀ (w n m : Nat),
    (padChars w n = padChars w m ↔ n % 10 ^ w = m % 10 ^ w)
  | 0, n, m => by simp [padChars, padDigits, Nat.mod_one]
  | w + 1, n, m => by
    have d1lt : n / 10 ^ w % 10 < 10 := Nat.mod_lt _ (by norm_num)
    have d2lt : m / 10 ^ w % 10 < 10 := Nat.mod_lt _ (by norm_num)
    have hnw : n % 10 ^ w < 10 ^ w := Nat.mod_lt _ (pow_pos (by norm_num) w)
    have hmw : m % 10 ^ w < 10 ^ w := Nat.mod_lt _ (pow_pos (by norm_num) w)
    show (Nat.digitChar (n / 10 ^ w % 10) :: padChars w n =
      Nat.digitChar (m / 10 ^ w % 10) :: padChars w m) ↔ _
    rw [Nat.mod_pow_succ, Nat.mod_pow_succ, nat_block_eq hnw hmw, List.cons_eq_cons,
      digitChar_eq_iff _ d1lt _ d2lt, padChars_eq_iff w n m]

/-- Comparing two texts that both start with a fixed-width zero-padded
field reduces to comparing the field values and then the rests. -/
theorem strLt_pad_block {w x y : Nat} (hx : x < 10 ^ w) (hy : y < 10 ^ w)
    (r1 r2 : List Char) :
    ((strLt (padChars w x ++ r1) (padChars w y ++ r2)) = true ↔
      (x < y ∨ (x = y ∧ strLt r1 r2 = true))) := by
  rw [strLt_append_iff r1 r2 (by rw [padChars_length, padChars_length]),
    padChars_lt_iff, padChars_eq_iff, Nat.mod_eq_of_lt hx, Nat.mod_eq_of_lt hy]

theorem fmtTimestamp_length (t : Timestamp) : (fmtTimestamp t).length = 15 := by
  simp [fmtTimestamp, padChars_length]

/-- On well-formed timestamps, lexicographic comparison of the
`%Y%m%d_%H%M%S` strings agrees with chronological order. -/
theorem fmt_lt_iff {a b : Timestamp} (ha : a.wf) (hb : b.wf) :
    ((strLt (fmtTimestamp a) (fmtTimestamp b)) = true ↔ a.chronoLt b) := by
  obtain ⟨hay, ham1, ham2, had1, had2, hah, hai, has⟩ := ha
  obtain ⟨hby, hbm1, hbm2, hbd1, hbd2, hbh, hbi, hbs⟩ := hb
  rw [fmtTimestamp, fmtTimestamp,
    strLt_pad_block (by norm_num; omega) (by norm_num; omega),
    strLt_pad_block (w := 2) (by omega) (by omega),
    strLt_pad_block (w := 2) (by omega) (by omega)]
  rw [strLt_cons_same,
    strLt_pad_block (w := 2) (by omega) (by omega),
    strLt_pad_block (w := 2) (by omega) (by omega),
    padChars_lt_iff, Nat.mod_eq_of_lt (by omega), Nat.mod_eq_of_lt (by omega)]
  exact Iff.rfl

/-- Lexicographic comparison of the produced filenames agrees with
chronological order of the embedded timestamps. -/
theorem videoFilename_lt_iff {a b : Timestamp} (ha : a.wf) (hb : b.wf) :
    ((strLt (videoFilename a) (videoFilename b)) = true ↔ a.chronoLt b) := by
  rw [videoFilename, videoFilename, strLt_append_left,
    strLt_append_iff _ _ (by rw [fmtTimestamp_length, fmtTimestamp_length]),
    strLt_irrefl, fmt_lt_iff ha hb]
  simp

theorem isPrefixOf_append_self (p r : List Char) : p.isPrefixOf (p ++ r) = true := by
  induction p with
  | nil => simp
  | cons c cs ih => simp [List.isPrefixOf_cons₂, ih]

/-- Every filename the Result Materializer produces ends in `.mp4`. -/
theorem endsWithMp4_videoFilename (t : Timestamp) :
    endsWithMp4 (videoFilename t) = true := by
  rw [endsWithMp4, videoFilename, List.isSuffixOf, List.reverse_append,
    List.reverse_append]
  rw [List.append_assoc]
  exact isPrefixOf_append_self _ _

/-- C6: for a SaveDirectory containing `.mp4` files named with the
fixed-width timestamp format for timestamps `T1 < T2 < T3`, the History
Store's listing presents them newest-first, i.e. `T3, T2, T1`; the
lexicographic descending sort of the filenames agrees with
parsed-timestamp descending order. -/
theorem spec_c6_history_newest_first (t1 t2 t3 : Timestamp)
    (h1 : t1.wf) (h2 : t2.wf) (h3 : t3.wf)
    (o12 : t1.chronoLt t2) (o23 : t2.chronoLt t3)
    (files : List (List Char))
    (hp : files.Perm [videoFilename t3, videoFilename t2, videoFilename t1]) :
    historyListing files =
      [videoFilename t3, videoFilename t2, videoFilename t1] := by
  have e12 : strLt (videoFilename t1) (videoFilename t2) = true :=
    (videoFilename_lt_iff h1 h2).mpr o12
  have e23 : strLt (videoFilename t2) (videoFilename t3) = true :=
    (videoFilename_lt_iff h2 h3).mpr o23
  have e13 : strLt (videoFilename t1) (videoFilename t3) = true :=
    strLt_trans e12 e23
  have hfil : List.filter endsWithMp4
      [videoFilename t3, videoFilename t2, videoFilename t1] =
      [videoFilename t3, videoFilename t2, videoFilename t1] := by
    simp [List.filter_cons, endsWithMp4_videoFilename]
  have hperm : (historyListing files).Perm
      [videoFilename t3, videoFilename t2, videoFilename t1] := by
    unfold historyListing
    refine (List.perm_insertionSort descR _).trans ?_
    have hf := hp.filter endsWithMp4
    rwa [hfil] at hf
  have hs1 : (historyListing files).Sorted descR := by
    unfold historyListing
    exact List.sorted_insertionSort descR _
  have hs2 : List.Sorted descR
      [videoFilename t3, videoFilename t2, videoFilename t1] := by
    simp only [List.Sorted, List.pairwise_cons, List.mem_cons, List.mem_singleton,
      List.not_mem_nil, List.Pairwise.nil, and_true]
    refine ⟨fun b hb => ?_, fun b hb => ?_, ?_⟩
    · rcases hb with hb | hb | hb
      · rw [hb]; exact strLt_asymm e23
      · rw [hb]; exact strLt_asymm e13
      · cases hb
    · rcases hb with hb | hb
      · rw [hb]; exact strLt_asymm e12
      · cases hb
    · exact fun a h => h.elim
  exact List.eq_of_perm_of_sorted hperm hs1 hs2

/-- Witness for C6 at concrete timestamps and a scrambled directory. -/
theorem spec_c6_witness :
    ((⟨2024, 1, 1, 0, 0, 0⟩ : Timestamp).wf ∧
      (⟨2024, 6, 15, 12, 30, 0⟩ : Timestamp).wf ∧
      (⟨2025, 2, 3, 4, 5, 6⟩ : Timestamp).wf ∧
      Timestamp.chronoLt ⟨2024, 1, 1, 0, 0, 0⟩ ⟨2024, 6, 15, 12, 30, 0⟩ ∧
      Timestamp.chronoLt ⟨2024, 6, 15, 12, 30, 0⟩ ⟨2025, 2, 3, 4, 5, 6⟩) ∧
    historyListing
      [videoFilename ⟨2024, 1, 1, 0, 0, 0⟩,
        videoFilename ⟨2025, 2, 3, 4, 5, 6⟩,
        videoFilename ⟨2024, 6, 15, 12, 30, 0⟩] =
      [videoFilename ⟨2025, 2, 3, 4, 5, 6⟩,
        videoFilename ⟨2024, 6, 15, 12, 30, 0⟩,
        videoFilename ⟨2024, 1, 1, 0, 0, 0⟩] :=
  ⟨⟨by decide, by decide, by decide, by decide, by decide⟩,
    spec_c6_history_newest_first ⟨2024, 1, 1, 0, 0, 0⟩ ⟨2024, 6, 15, 12, 30, 0⟩
      ⟨2025, 2, 3, 4, 5, 6⟩ (by decide) (by decide) (by decide) (by decide) (by decide)
      _ (by decide)⟩

/-- C3 counterexample: an uploaded image in the alpha-bearing mode `LA` is
not converted — the adapter re-encodes it with its alpha channel intact, so
the re-encoded output still carries alpha, contrary to the claim that every
alpha-bearing mode is converted to a non-alpha mode. -/
theorem spec_c3_counterexample :
    Mode.hasAlpha Mode.LA = true ∧
    decodeDataUrl (adapterEncode ⟨Mode.LA, 1, 1, [7, 8]⟩) =
      some ⟨Mode.LA, 1, 1, [7, 8]⟩ ∧
    Mode.hasAlpha (normalizeUpload ⟨Mode.LA, 1, 1, [7, 8]⟩).mode = true :=
  ⟨rfl, rfl, rfl⟩

/-- C3 amended: the adapter converts to RGB exactly those uploads whose
decoded mode is `RGBA`; an upload in any other mode — including the
alpha-bearing modes `LA` and `PA` — is re-encoded unchanged, alpha
included. -/
theorem spec_c3_alpha_normalization (img : PILImage) :
    (img.mode = Mode.RGBA → (normalizeUpload img).mode = Mode.RGB) ∧
    (img.mode ≠ Mode.RGBA → normalizeUpload img = img) := by
  constructor
  · intro h
    simp [normalizeUpload, h, PILImage.convertRGB]
  · intro h
    simp [normalizeUpload, h]

/-- Witness for C3's amended statement at an RGBA and an LA input. -/
theorem spec_c3_witness :
    ((⟨Mode.RGBA, 1, 1, [1, 2, 3, 4]⟩ : PILImage).mode = Mode.RGBA ∧
      (normalizeUpload ⟨Mode.RGBA, 1, 1, [1, 2, 3, 4]⟩).mode = Mode.RGB) ∧
    ((⟨Mode.LA, 1, 1, [7, 8]⟩ : PILImage).mode ≠ Mode.RGBA ∧
      normalizeUpload ⟨Mode.LA, 1, 1, [7, 8]⟩ = ⟨Mode.LA, 1, 1, [7, 8]⟩) :=
  ⟨⟨rfl, (spec_c3_alpha_normalization ⟨Mode.RGBA, 1, 1, [1, 2, 3, 4]⟩).1 rfl⟩,
    ⟨by decide, (spec_c3_alpha_normalization ⟨Mode.LA, 1, 1, [7, 8]⟩).2 (by decide)⟩⟩

/-- C4 counterexample: a fetch answered with status 201 — a 200-class
success — produces no file and no path, because `save_video` requires the
status to be exactly 200. -/
theorem spec_c4_counterexample :
    (200 ≤ 201 ∧ 201 < 300) ∧
    save_video ("generated_videos".toList) ⟨2024, 1, 1, 12, 0, 0⟩
      (.ok ⟨201, [1, 2, 3]⟩) [] = ⟨none, [], []⟩ :=
  ⟨by decide, rfl⟩

/-- C4 amended: for every fetch whose status is exactly 200, the Result
Materializer writes the response body verbatim to
`kling_video_<timestamp>.mp4` under the SaveDirectory and returns that
path. -/
theorem spec_c4_save_success (dir : List Char) (now : Timestamp)
    (r : HttpResponse) (fs : List (List Char × List Nat))
    (h : r.status_code = 200) :
    save_video dir now (.ok r) fs =
      ⟨some (dir ++ ('/' :: videoFilename now)),
        fs ++ [(videoFilename now, r.content)], []⟩ := by
  simp [save_video, h]

/-- Witness for C4's amended statement: a 200 response of 2 bytes. -/
theorem spec_c4_witness :
    (HttpResponse.mk 200 [9, 8]).status_code = 200 ∧
    save_video ("generated_videos".toList) ⟨2024, 1, 1, 12, 0, 0⟩
      (.ok ⟨200, [9, 8]⟩) [] =
      ⟨some (("generated_videos".toList) ++ ('/' :: videoFilename ⟨2024, 1, 1, 12, 0, 0⟩)),
        [(videoFilename ⟨2024, 1, 1, 12, 0, 0⟩, [9, 8])], []⟩ :=
  ⟨rfl, spec_c4_save_success ("generated_videos".toList) ⟨2024, 1, 1, 12, 0, 0⟩
    ⟨200, [9, 8]⟩ [] rfl⟩

/-- C5: for every failed fetch — a transport error or a response whose
status is not 200-class — `save_video` returns no path and leaves the
SaveDirectory unchanged: no partial file is retained. -/
theorem spec_c5_save_failure_frame (dir : List Char) (now : Timestamp)
    (fetch : Except (List Char) HttpResponse)
    (fs : List (List Char × List Nat))
    (h : ∀ r, fetch = .ok r → ¬(200 ≤ r.status_code ∧ r.status_code < 300)) :
    (save_video dir now fetch fs).savedPath = none ∧
      (save_video dir now fetch fs).fs = fs := by
  cases fetch with
  | error e => exact ⟨rfl, rfl⟩
  | ok r =>
    have hne : ¬ r.status_code = 200 := by
      intro he
      exact h r rfl (by omega)
    simp [save_video, hne]

/-- Witness for C5 at a 404 response. -/
theorem spec_c5_witness :
    (save_video ("generated_videos".toList) ⟨2024, 1, 1, 12, 0, 0⟩
      (.ok ⟨404, [1]⟩) []).savedPath = none ∧
    (save_video ("generated_videos".toList) ⟨2024, 1, 1, 12, 0, 0⟩
      (.ok ⟨404, [1]⟩) []).fs = [] :=
  spec_c5_save_failure_frame ("generated_videos".toList) ⟨2024, 1, 1, 12, 0, 0⟩
    (.ok ⟨404, [1]⟩) []
    (fun r hr => by cases hr; decide)

/-- When an image was uploaded and decoded and the button is pressed, the
single inference call carries the adapter-encoded start image, whatever the
call's outcome. -/
theorem appRun_calledWith_ok (img : PILImage) (infer : InferResult)
    (fetch : Except (List Char) HttpResponse) (now : Timestamp)
    (dir : List Char) (fs : List (List Char × List Nat)) :
    (appRun (some (.ok img)) true infer fetch now dir fs).calledWith =
      [some (adapterEncode img)] := by
  cases infer with
  | raised m => rfl
  | output v =>
    by_cases hv : v.truthy
    · cases v with
      | pstr s =>
        by_cases hs : (httpPat.isPrefixOf s || httpsPat.isPrefixOf s) = true
        · simp [appRun, hv, hs]
        · simp [appRun, hv, hs]
      | pnone => simp [appRun, hv]
      | pother b => simp [appRun, hv]
    · rw [Bool.not_eq_true] at hv
      simp [appRun, hv]

/-- C1: a submission with no uploaded image is rejected with the
user-visible error and makes no inference call; conversely, whenever an
inference call is made, a successfully decoded start image was present and
its encoding was sent as the `start_image` payload. -/
theorem spec_c1_submission_requires_image
    (infer : InferResult) (fetch : Except (List Char) HttpResponse)
    (now : Timestamp) (dir : List Char) (fs : List (List Char × List Nat)) :
    ((appRun none true infer fetch now dir fs).errors = [uploadErrMsg] ∧
      (appRun none true infer fetch now dir fs).calledWith = []) ∧
    (∀ (uploaded : Option (Except (List Char) PILImage)) (pressed : Bool),
      (appRun uploaded pressed infer fetch now dir fs).calledWith ≠ [] →
      ∃ img, uploaded = some (.ok img) ∧
        (appRun uploaded pressed infer fetch now dir fs).calledWith =
          [some (adapterEncode img)]) := by
  refine ⟨⟨rfl, rfl⟩, ?_⟩
  intro uploaded pressed h
  match uploaded with
  | none =>
    exfalso
    cases pressed <;> exact h rfl
  | some (.error e) =>
    exfalso
    exact h rfl
  | some (.ok img) =>
    cases pressed with
    | false => exact absurd rfl h
    | true => exact ⟨img, rfl, appRun_calledWith_ok img infer fetch now dir fs⟩

/-- Witness for C1: a button press with no upload, and a call that did
happen. -/
theorem spec_c1_witness :
    ((appRun none true (.raised ("boom".toList)) (.error ("net".toList))
        ⟨2024, 1, 1, 12, 0, 0⟩ ("generated_videos".toList) []).errors = [uploadErrMsg] ∧
      (appRun none true (.raised ("boom".toList)) (.error ("net".toList))
        ⟨2024, 1, 1, 12, 0, 0⟩ ("generated_videos".toList) []).calledWith = []) ∧
    (∃ img, (some (.ok (⟨Mode.RGB, 1, 1, [1]⟩ : PILImage)) :
        Option (Except (List Char) PILImage)) = some (.ok img) ∧
      (appRun (some (.ok ⟨Mode.RGB, 1, 1, [1]⟩)) true (.raised ("boom".toList))
        (.error ("net".toList)) ⟨2024, 1, 1, 12, 0, 0⟩
        ("generated_videos".toList) []).calledWith = [some (adapterEncode img)]) :=
  ⟨(spec_c1_submission_requires_image (.raised ("boom".toList)) (.error ("net".toList))
      ⟨2024, 1, 1, 12, 0, 0⟩ ("generated_videos".toList) []).1,
    (spec_c1_submission_requires_image (.raised ("boom".toList)) (.error ("net".toList))
      ⟨2024, 1, 1, 12, 0, 0⟩ ("generated_videos".toList) []).2
      (some (.ok ⟨Mode.RGB, 1, 1, [1]⟩)) true (by decide)⟩

/-- C8: when the inference call raises, the SaveDirectory is untouched: no
file is written, a subsequent history listing equals the one from before
the attempt, and the exception is surfaced as a user-visible error. -/
theorem spec_c8_exception_frame (img : PILImage) (msg : List Char)
    (fetch : Except (List Char) HttpResponse) (now : Timestamp)
    (dir : List Char) (fs : List (List Char × List Nat)) :
    (appRun (some (.ok img)) true (.raised msg) fetch now dir fs).fs = fs ∧
    historyListing
      ((appRun (some (.ok img)) true (.raised msg) fetch now dir fs).fs.map Prod.fst) =
      historyListing (fs.map Prod.fst) ∧
    (appRun (some (.ok img)) true (.raised msg) fetch now dir fs).savedPath = none ∧
    (appRun (some (.ok img)) true (.raised msg) fetch now dir fs).errors =
      [errPref ++ msg] :=
  ⟨rfl, rfl, rfl, rfl⟩

/-- C10 counterexample: on a falsy output the `st.status` context manager
auto-completes the still-running status when the with-block exits cleanly,
so the status trace does end in a complete update — the claim that the
progress status is never updated to complete is false of the program. -/
theorem spec_c10_counterexample :
    (appRun (some (.ok ⟨Mode.RGB, 1, 1, [1]⟩)) true (.output .pnone)
      (.error ("net".toList)) ⟨2024, 1, 1, 12, 0, 0⟩
      ("generated_videos".toList) []).statusTrace =
      [StatusUpdate.running genLabel, StatusUpdate.running procLabel,
        StatusUpdate.complete procLabel] ∧
    StatusUpdate.complete procLabel ∈
      (appRun (some (.ok ⟨Mode.RGB, 1, 1, [1]⟩)) true (.output .pnone)
        (.error ("net".toList)) ⟨2024, 1, 1, 12, 0, 0⟩
        ("generated_videos".toList) []).statusTrace :=
  ⟨rfl, by
    have h : (appRun (some (.ok ⟨Mode.RGB, 1, 1, [1]⟩)) true (.output .pnone)
        (.error ("net".toList)) ⟨2024, 1, 1, 12, 0, 0⟩
        ("generated_videos".toList) []).statusTrace =
        [StatusUpdate.running genLabel, StatusUpdate.running procLabel,
          StatusUpdate.complete procLabel] := rfl
    rw [h]
    simp⟩

/-- C10 amended: when the inference call returns a falsy value, the code's
own handling ends silently — nothing is displayed, no error is shown, no
file is written, no path is produced, and the code issues no further status
update — but the status widget does not stay incomplete: the `st.status`
context manager automatically sets the still-running status to the complete
state on clean exit of the with-block. -/
theorem spec_c10_falsy_silent (img : PILImage) (v : PyValue)
    (fetch : Except (List Char) HttpResponse) (now : Timestamp)
    (dir : List Char) (fs : List (List Char × List Nat))
    (hv : v.truthy = false) :
    (appRun (some (.ok img)) true (.output v) fetch now dir fs).displayed = [] ∧
    (appRun (some (.ok img)) true (.output v) fetch now dir fs).errors = [] ∧
    (appRun (some (.ok img)) true (.output v) fetch now dir fs).fs = fs ∧
    (appRun (some (.ok img)) true (.output v) fetch now dir fs).savedPath = none ∧
    (appRun (some (.ok img)) true (.output v) fetch now dir fs).statusTrace =
      [StatusUpdate.running genLabel, StatusUpdate.running procLabel,
        StatusUpdate.complete procLabel] := by
  refine ⟨?_, ?_, ?_, ?_, ?_⟩ <;> simp [appRun, hv, statusOnExit]

/-- Witness for C10's amended statement at output `None`. -/
theorem spec_c10_witness :
    PyValue.truthy .pnone = false ∧
    (appRun (some (.ok ⟨Mode.RGB, 1, 1, [1]⟩)) true (.output .pnone)
      (.error ("net".toList)) ⟨2024, 1, 1, 12, 0, 0⟩
      ("generated_videos".toList) []).displayed = [] ∧
    (appRun (some (.ok ⟨Mode.RGB, 1, 1, [1]⟩)) true (.output .pnone)
      (.error ("net".toList)) ⟨2024, 1, 1, 12, 0, 0⟩
      ("generated_videos".toList) []).errors = [] ∧
    (appRun (some (.ok ⟨Mode.RGB, 1, 1, [1]⟩)) true (.output .pnone)
      (.error ("net".toList)) ⟨2024, 1, 1, 12, 0, 0⟩
      ("generated_videos".toList) []).statusTrace =
      [StatusUpdate.running genLabel, StatusUpdate.running procLabel,
        StatusUpdate.complete procLabel] :=
  ⟨rfl,
    (spec_c10_falsy_silent ⟨Mode.RGB, 1, 1, [1]⟩ .pnone (.error ("net".toList))
      ⟨2024, 1, 1, 12, 0, 0⟩ ("generated_videos".toList) [] rfl).1,
    (spec_c10_falsy_silent ⟨Mode.RGB, 1, 1, [1]⟩ .pnone (.error ("net".toList))
      ⟨2024, 1, 1, 12, 0, 0⟩ ("generated_videos".toList) [] rfl).2.1,
    (spec_c10_falsy_silent ⟨Mode.RGB, 1, 1, [1]⟩ .pnone (.error ("net".toList))
      ⟨2024, 1, 1, 12, 0, 0⟩ ("generated_videos".toList) [] rfl).2.2.2.2⟩

/-- C7 counterexample: an inference call that returns `None` — an output
value that is not an http/https string — is not displayed at all (and
produces no error and no fetch), contrary to the claim that any non-URL
output value is merely displayed. -/
theorem spec_c7_counterexample :
    (appRun (some (.ok ⟨Mode.RGB, 1, 1, [1]⟩)) true (.output .pnone)
      (.error ("net".toList)) ⟨2024, 1, 1, 12, 0, 0⟩
      ("generated_videos".toList) []).displayed = [] ∧
    (appRun (some (.ok ⟨Mode.RGB, 1, 1, [1]⟩)) true (.output .pnone)
      (.error ("net".toList)) ⟨2024, 1, 1, 12, 0, 0⟩
      ("generated_videos".toList) []).errors = [] ∧
    (appRun (some (.ok ⟨Mode.RGB, 1, 1, [1]⟩)) true (.output .pnone)
      (.error ("net".toList)) ⟨2024, 1, 1, 12, 0, 0⟩
      ("generated_videos".toList) []).fetchedUrls = [] ∧
    (appRun (some (.ok ⟨Mode.RGB, 1, 1, [1]⟩)) true (.output .pnone)
      (.error ("net".toList)) ⟨2024, 1, 1, 12, 0, 0⟩
      ("generated_videos".toList) []).savedPath = none :=
  ⟨rfl, rfl, rfl, rfl⟩

/-- C7 amended: a string result with an http/https scheme is passed to the
Result Materializer; any other *truthy* output value is merely displayed
(falsy outputs are silently dropped); and an exception from the call is
converted to a user-visible error containing the underlying message, with
the status set to failed and no second call — the operation terminates with
no retry. -/
theorem spec_c7_outcome_handling (img : PILImage)
    (fetch : Except (List Char) HttpResponse) (now : Timestamp)
    (dir : List Char) (fs : List (List Char × List Nat)) :
    (∀ s, (httpPat.isPrefixOf s || httpsPat.isPrefixOf s) = true →
      (appRun (some (.ok img)) true (.output (.pstr s)) fetch now dir fs).fetchedUrls
          = [s] ∧
      (appRun (some (.ok img)) true (.output (.pstr s)) fetch now dir fs).savedPath
          = (save_video dir now fetch fs).savedPath) ∧
    (∀ v : PyValue, v.truthy = true → isHttpUrl v = false →
      (appRun (some (.ok img)) true (.output v) fetch now dir fs).displayed = [v] ∧
      (appRun (some (.ok img)) true (.output v) fetch now dir fs).fetchedUrls = [] ∧
      (appRun (some (.ok img)) true (.output v) fetch now dir fs).errors = []) ∧
    (∀ msg,
      (appRun (some (.ok img)) true (.raised msg) fetch now dir fs).errors
          = [errPref ++ msg] ∧
      (appRun (some (.ok img)) true (.raised msg) fetch now dir fs).calledWith.length
          = 1 ∧
      (appRun (some (.ok img)) true (.raised msg) fetch now dir fs).fetchedUrls = [] ∧
      (appRun (some (.ok img)) true (.raised msg) fetch now dir fs).statusTrace =
        [StatusUpdate.running genLabel, StatusUpdate.running procLabel,
          StatusUpdate.failed failLabel]) := by
  refine ⟨?_, ?_, ?_⟩
  · intro s hs
    have hne : s ≠ [] := by
      rintro rfl
      exact absurd hs (by decide)
    have ht : PyValue.truthy (.pstr s) = true := by
      cases s with
      | nil => exact absurd rfl hne
      | cons c cs => rfl
    constructor
    · simp [appRun, ht, hs]
    · simp [appRun, ht, hs]
  · intro v hv hurl
    cases v with
    | pstr s =>
      rw [isHttpUrl] at hurl
      refine ⟨?_, ?_, ?_⟩ <;> simp [appRun, hv, hurl]
    | pnone => cases hv
    | pother b =>
      refine ⟨?_, ?_, ?_⟩ <;> simp [appRun, hv]
  · intro msg
    exact ⟨rfl, rfl, rfl, rfl⟩

/-- Witness for C7's amended statement: a URL result, an opaque truthy
result, and a raised exception, each at concrete inputs. -/
theorem spec_c7_witness :
    ((httpPat.isPrefixOf ("https://example.test/video.mp4".toList) ||
        httpsPat.isPrefixOf ("https://example.test/video.mp4".toList)) = true ∧
      (appRun (some (.ok ⟨Mode.RGB, 1, 1, [1]⟩)) true
        (.output (.pstr ("https://example.test/video.mp4".toList)))
        (.ok ⟨200, [1, 2]⟩) ⟨2024, 1, 1, 12, 0, 0⟩ ("generated_videos".toList)
        []).fetchedUrls = [("https://example.test/video.mp4".toList)]) ∧
    (PyValue.truthy (.pother true) = true ∧ isHttpUrl (.pother true) = false ∧
      (appRun (some (.ok ⟨Mode.RGB, 1, 1, [1]⟩)) true (.output (.pother true))
        (.ok ⟨200, [1, 2]⟩) ⟨2024, 1, 1, 12, 0, 0⟩ ("generated_videos".toList)
        []).displayed = [.pother true]) ∧
    (appRun (some (.ok ⟨Mode.RGB, 1, 1, [1]⟩)) true (.raised ("boom".toList))
      (.ok ⟨200, [1, 2]⟩) ⟨2024, 1, 1, 12, 0, 0⟩ ("generated_videos".toList)
      []).errors = [errPref ++ ("boom".toList)] :=
  ⟨⟨by decide,
      ((spec_c7_outcome_handling ⟨Mode.RGB, 1, 1, [1]⟩ (.ok ⟨200, [1, 2]⟩)
        ⟨2024, 1, 1, 12, 0, 0⟩ ("generated_videos".toList) []).1
        ("https://example.test/video.mp4".toList) (by decide)).1⟩,
    ⟨rfl, rfl,
      ((spec_c7_outcome_handling ⟨Mode.RGB, 1, 1, [1]⟩ (.ok ⟨200, [1, 2]⟩)
        ⟨2024, 1, 1, 12, 0, 0⟩ ("generated_videos".toList) []).2.1
        (.pother true) rfl rfl).1⟩,
    ((spec_c7_outcome_handling ⟨Mode.RGB, 1, 1, [1]⟩ (.ok ⟨200, [1, 2]⟩)
      ⟨2024, 1, 1, 12, 0, 0⟩ ("generated_videos".toList) []).2.2
      ("boom".toList)).1⟩

/-- Members of the history listing come from the directory and end in
`.mp4`. -/
theorem mem_historyListing {f : List Char} {files : List (List Char)}
    (h : f ∈ historyListing files) : f ∈ files ∧ endsWithMp4 f = true := by
  unfold historyListing at h
  have hmem : f ∈ files.filter endsWithMp4 :=
    (List.perm_insertionSort descR _).mem_iff.mp h
  exact ⟨(List.mem_filter.mp hmem).1, (List.mem_filter.mp hmem).2⟩

/-- When every entry of a list parses, rendering the entries succeeds. -/
theorem renderEntries_ok : ∀ (l : List (List Char)),
    (∀ f ∈ l, ∃ t, parseTimestamp (stripVideoName f) = .ok t) →
    ∃ r, renderEntries l = .ok r
  | [], _ => ⟨[], rfl⟩
  | f :: fs, h => by
    obtain ⟨t, ht⟩ := h f (List.mem_cons_self f fs)
    obtain ⟨r, hr⟩ := renderEntries_ok fs (fun g hg => h g (List.mem_cons_of_mem f hg))
    exact ⟨(f, t) :: r, by rw [renderEntries, ht, hr]⟩

/-- C2 counterexample: a directory holding a single malformed `.mp4` name
makes the History tab raise — `strptime` fails on the stripped name and the
`ValueError` aborts the listing instead of skipping the entry.  This
happens for a name that does not match the pattern at all, and equally for
pattern-shaped names that `datetime` rejects: February 30, and a second
field of 60. -/
theorem spec_c2_counterexample :
    renderHistory [("malformed.mp4".toList)] =
      .error ("time data does not match format".toList) ∧
    renderHistory [("kling_video_20240230_120000.mp4".toList)] =
      .error ("day is out of range for month".toList) ∧
    renderHistory [("kling_video_20240101_120060.mp4".toList)] =
      .error ("second must be in 0..59".toList) :=
  ⟨rfl, rfl, rfl⟩

/-- C2 amended: a directory entry not ending in `.mp4` is excluded from the
listing without any error, however malformed its name; but the listing
renders without raising only when every `.mp4`-suffixed entry strips and
parses to a timestamp — a malformed `.mp4` name aborts the listing. -/
theorem spec_c2_listing_tolerance (files : List (List Char))
    (h : ∀ f ∈ files, endsWithMp4 f = true →
      ∃ t, parseTimestamp (stripVideoName f) = .ok t) :
    (∃ r, renderHistory files = .ok r) ∧
    (∀ f ∈ files, endsWithMp4 f = false → f ∉ historyListing files) := by
  constructor
  · exact renderEntries_ok (historyListing files)
      (fun f hf => h f (mem_historyListing hf).1 (mem_historyListing hf).2)
  · intro f _ hf hmem
    rw [(mem_historyListing hmem).2] at hf
    cases hf

/-- Witness for C2's amended statement: a directory holding one canonical
video name, one non-`.mp4` file, and one variable-width name with a
one-digit month (which `strptime` accepts) renders without error, and the
non-`.mp4` file is excluded. -/
theorem spec_c2_witness :
    (∃ r, renderHistory
      [("kling_video_20240101_120000.mp4".toList), ("notes.txt".toList),
        ("kling_video_202411_120000.mp4".toList)] = .ok r) ∧
    ("notes.txt".toList) ∉ historyListing
      [("kling_video_20240101_120000.mp4".toList), ("notes.txt".toList),
        ("kling_video_202411_120000.mp4".toList)] :=
  ⟨(spec_c2_listing_tolerance
      [("kling_video_20240101_120000.mp4".toList), ("notes.txt".toList),
        ("kling_video_202411_120000.mp4".toList)]
      (fun f hf hm => by
        simp only [List.mem_cons, List.not_mem_nil, or_false] at hf
        rcases hf with rfl | rfl | rfl
        · exact ⟨⟨2024, 1, 1, 12, 0, 0⟩, rfl⟩
        · exact absurd hm (by decide)
        · exact ⟨⟨2024, 1, 1, 12, 0, 0⟩, rfl⟩)).1,
    (spec_c2_listing_tolerance
      [("kling_video_20240101_120000.mp4".toList), ("notes.txt".toList),
        ("kling_video_202411_120000.mp4".toList)]
      (fun f hf hm => by
        simp only [List.mem_cons, List.not_mem_nil, or_false] at hf
        rcases hf with rfl | rfl | rfl
        · exact ⟨⟨2024, 1, 1, 12, 0, 0⟩, rfl⟩
        · exact absurd hm (by decide)
        · exact ⟨⟨2024, 1, 1, 12, 0, 0⟩, rfl⟩)).2 ("notes.txt".toList)
      (by decide) (by decide)⟩

theorem b64Inv_b64Table : ∀ i < 64, b64Inv (b64Table i) = some i := by decide

theorem b64Table_ne_eq : ∀ i < 64, b64Table i ≠ '=' := by decide

/-- Base64 decoding inverts base64 encoding on byte inputs. -/
theorem b64_roundtrip : ∀ (l : List Nat), (∀ b ∈ l, b < 256) →
    b64decode (b64encode l) = some l
  | [], _ => rfl
  | [b1], h => by
    have hb1 : b1 < 256 := h b1 (by simp)
    rw [show b64encode [b1] = [b64Table (b1 / 4), b64Table (b1 % 4 * 16), '=', '='] from
      rfl]
    rw [b64decode, b64Inv_b64Table _ (by omega), b64Inv_b64Table _ (by omega)]
    simp only [if_pos rfl, and_self, reduceIte]
    have : b1 / 4 * 4 + b1 % 4 * 16 / 16 = b1 := by omega
    rw [this]
  | [b1, b2], h => by
    have hb1 : b1 < 256 := h b1 (by simp)
    have hb2 : b2 < 256 := h b2 (by simp)
    rw [show b64encode [b1, b2] = [b64Table (b1 / 4), b64Table (b1 % 4 * 16 + b2 / 16),
      b64Table (b2 % 16 * 4), '='] from rfl]
    rw [b64decode, b64Inv_b64Table _ (by omega), b64Inv_b64Table _ (by omega)]
    dsimp only
    rw [if_neg (b64Table_ne_eq _ (by omega)), b64Inv_b64Table _ (by omega)]
    simp only [if_pos rfl, reduceIte]
    have e1 : b1 / 4 * 4 + (b1 % 4 * 16 + b2 / 16) / 16 = b1 := by omega
    have e2 : (b1 % 4 * 16 + b2 / 16) % 16 * 16 + b2 % 16 * 4 / 4 = b2 := by omega
    rw [e1, e2]
  | b1 :: b2 :: b3 :: rest, h => by
    have hb1 : b1 < 256 := h b1 (by simp)
    have hb2 : b2 < 256 := h b2 (by simp)
    have hb3 : b3 < 256 := h b3 (by simp)
    have ih := b64_roundtrip rest (fun b hb => h b (by simp [hb]))
    rw [show b64encode (b1 :: b2 :: b3 :: rest) =
      b64Table (b1 / 4) :: b64Table (b1 % 4 * 16 + b2 / 16) ::
        b64Table (b2 % 16 * 4 + b3 / 64) :: b64Table (b3 % 64) :: b64encode rest from
      rfl]
    rw [b64decode, b64Inv_b64Table _ (by omega), b64Inv_b64Table _ (by omega)]
    dsimp only
    rw [if_neg (b64Table_ne_eq _ (by omega)), b64Inv_b64Table _ (by omega)]
    dsimp only
    rw [if_neg (b64Table_ne_eq _ (by omega)), b64Inv_b64Table _ (by omega), ih]
    have e1 : b1 / 4 * 4 + (b1 % 4 * 16 + b2 / 16) / 16 = b1 := by omega
    have e2 : (b1 % 4 * 16 + b2 / 16) % 16 * 16 + (b2 % 16 * 4 + b3 / 64) / 4 = b2 := by
      omega
    have e3 : (b2 % 16 * 4 + b3 / 64) % 4 * 64 + b3 % 64 = b3 := by omega
    rw [e1, e2]
    dsimp only
    rw [e3]

/-- Every byte of the modelled PNG stream is below 256 for a well-formed
image. -/
theorem pngEncode_bytes (img : PILImage) (hw : img.wf) :
    ∀ b ∈ pngEncode img, b < 256 := by
  obtain ⟨_, _, hpx⟩ := hw
  intro b hb
  rw [pngEncode] at hb
  rcases List.mem_cons.mp hb with rfl | hb
  · cases img.mode <;> simp [modeTag]
  · rcases List.mem_append.mp hb with hb | hb
    · rw [enc4] at hb
      simp only [List.mem_cons, List.not_mem_nil, or_false] at hb
      rcases hb with rfl | rfl | rfl | rfl <;> omega
    · rcases List.mem_append.mp hb with hb | hb
      · rw [enc4] at hb
        simp only [List.mem_cons, List.not_mem_nil, or_false] at hb
        rcases hb with rfl | rfl | rfl | rfl <;> omega
      · exact hpx b hb

/-- Decoding the modelled PNG stream recovers the image exactly. -/
theorem pngDecode_pngEncode (img : PILImage) (hw : img.wf) :
    pngDecode (pngEncode img) = some img := by
  obtain ⟨h1, h2, _⟩ := hw
  obtain ⟨m, w, hgt, px⟩ := img
  simp only at h1 h2
  have ew : w / 16777216 % 256 * 16777216 + w / 65536 % 256 * 65536 +
      w / 256 % 256 * 256 + w % 256 = w := by omega
  have eh : hgt / 16777216 % 256 * 16777216 + hgt / 65536 % 256 * 65536 +
      hgt / 256 % 256 * 256 + hgt % 256 = hgt := by omega
  simp only [pngEncode, enc4, List.cons_append, List.nil_append]
  rw [pngDecode]
  cases m <;> simp only [modeTag, modeOfTag] <;> dsimp only [Option.map] <;> rw [ew, eh]

/-- C9: for an upload in a non-alpha mode the Image Codec Adapter is
lossless — the inline string it produces is the MIME-tagged base64 encoding
of the (modelled) lossless raster stream, and decoding that string recovers
the image, pixel data included, exactly. -/
theorem spec_c9_lossless_roundtrip (img : PILImage) (hw : img.wf)
    (ha : img.mode.hasAlpha = false) :
    adapterEncode img = mimeChars ++ b64encode (pngEncode img) ∧
    decodeDataUrl (adapterEncode img) = some img := by
  have hmode : ¬ img.mode = Mode.RGBA := by
    intro hm
    rw [hm] at ha
    cases ha
  have hnorm : normalizeUpload img = img := by
    simp [normalizeUpload, hmode]
  have henc : adapterEncode img = mimeChars ++ b64encode (pngEncode img) := by
    rw [adapterEncode, hnorm, image_to_base64]
  refine ⟨henc, ?_⟩
  rw [henc, decodeDataUrl, if_pos (isPrefixOf_append_self mimeChars _),
    List.drop_left, b64_roundtrip _ (pngEncode_bytes img hw)]
  exact pngDecode_pngEncode img hw

/-- Witness for C9 at a 1×1 RGB image. -/
theorem spec_c9_witness :
    (⟨Mode.RGB, 1, 1, [5, 6, 7]⟩ : PILImage).wf ∧
    Mode.hasAlpha Mode.RGB = false ∧
    decodeDataUrl (adapterEncode ⟨Mode.RGB, 1, 1, [5, 6, 7]⟩) =
      some ⟨Mode.RGB, 1, 1, [5, 6, 7]⟩ :=
  ⟨⟨by norm_num, by norm_num, by decide⟩, rfl,
    (spec_c9_lossless_roundtrip ⟨Mode.RGB, 1, 1, [5, 6, 7]⟩
      ⟨by norm_num, by norm_num, by decide⟩ rfl).2⟩

end KlingApp
